import Mathlib

/-!
Verification of the distributed checkpoint manager
(`torch_xla/experimental/distributed_checkpoint/manager.py`).

The Python class `CheckpointManager` keeps an in-memory deque
`_tracked_chkpts` of `_CheckpointMetadata` records (step, timestamp),
mirrors them as `.manager_metadata` files on blob storage, and exposes
`should_save`, `save`, `save_async`, `restore`, `all_steps`.

Shallow embedding choices:
* Timestamps (`datetime.now()`) are modelled by a per-manager logical
  clock `clock : Nat`; every call of `now()` returns the current clock
  and bumps it, so timestamps are strictly increasing, matching the
  wall clock's monotonicity.
* Blob storage is a list of directories keyed by step; each directory
  optionally holds a readable metadata file (the ledger record).
  A directory whose `meta` is `none` is an orphan: data was written but
  the metadata file is absent or unreadable.
* Storage I/O performed by an operation is recorded in an explicit
  event trace (`deletePath`, `writeSnapshot`, `writeMetadata`,
  `readSnapshot`); the path of an event is identified by its step,
  since checkpoint paths are the deterministic `base_path/step`.
* The two fallible I/O steps inside `save` (the collective
  `save_state_dict` and the metadata `pickle.dump`) take success
  oracles `snapOk`, `mdOk`; a `false` oracle models the Python call
  raising, and the outcome's `result` is `Except.error ()` in that
  case, mirroring the exception propagating out of `save`.
* The process's rank in the coordination group
  (`dist.get_rank(self.pg)`) is the manager field `rank`.
-/

namespace Ckpt

/-- Embeds `_CheckpointMetadata`: the step and timestamp of a taken
checkpoint. -/
structure CheckpointMetadata where
  step : Int
  ts : Nat
deriving Repr, DecidableEq

/-- A storage I/O action against the blob filesystem or snapshot store,
identified by the step whose path `base_path/step` it touches. -/
inductive Event where
  | deletePath (step : Int)
  | writeSnapshot (step : Int)
  | writeMetadata (step : Int)
  | readSnapshot (step : Int)
deriving Repr, DecidableEq

/-- One checkpoint directory `base_path/step` on storage; `meta` is the
content of its `.manager_metadata` file when that file is readable. -/
structure ChkptDir where
  step : Int
  meta : Option CheckpointMetadata
deriving Repr, DecidableEq

/-- The blob filesystem under `base_path`: the checkpoint directories
currently existing. -/
abbrev Storage := List ChkptDir

/-- `fs.exists` on the path of `step`. -/
def storageExists (st : Storage) (step : Int) : Bool :=
  st.any (fun d => d.step == step)

/-- The ledger: every readable metadata record currently on storage. -/
def ledgerOf (st : Storage) : List CheckpointMetadata :=
  st.filterMap (fun d => d.meta)

/-- Embeds `CheckpointManager._delete_chkpt_at_step`: if the step's path
exists, remove it recursively (one `deletePath` event); otherwise do
nothing. -/
def deleteChkptAtStep (st : Storage) (step : Int) : Storage × List Event :=
  if storageExists st step then
    (st.filter (fun d => d.step != step), [Event.deletePath step])
  else
    (st, [])

/-- Effect of a successful `dist_cp.save_state_dict`: the step's
directory now exists holding snapshot data, with no metadata file yet. -/
def writeSnapshotData (st : Storage) (step : Int) : Storage :=
  st ++ [⟨step, none⟩]

/-- Effect of a successful metadata `pickle.dump` into
`path/.manager_metadata`: the step's directory now carries the record. -/
def writeMetadataFile (st : Storage) (step : Int)
    (md : CheckpointMetadata) : Storage :=
  st.map (fun d => if d.step == step then ⟨d.step, some md⟩ else d)

/-- Embeds the state of a `CheckpointManager` instance.  `rank` is this
process's rank in the coordination group `self.pg`; `clock` models the
wall clock read by `datetime.now()`; `asyncQueue` holds the steps of
pending async checkpoints. -/
structure CheckpointManager where
  base_path : String
  save_interval : Int
  max_to_keep : Nat
  rank : Nat
  tracked_chkpts : List CheckpointMetadata
  clock : Nat
  asyncQueue : List Int
deriving Repr, DecidableEq

/-- Embeds `CheckpointManager.should_save`:
`return step % self.save_interval == 0`. -/
def CheckpointManager.should_save (mgr : CheckpointManager) (step : Int) : Bool :=
  step % mgr.save_interval == 0

/-- Embeds `CheckpointManager._load_tracked_chkpts`.  The input listing
is `fs.ls(base_path)` paired with each child's readable metadata record
(`none` when opening or unpickling it raises, which the `except` branch
catches).  Returns the tracked list sorted by timestamp, the invalid
paths, and whether the aggregate warning is logged.  The function is
total: a bad entry is skipped, never raised. -/
def loadTrackedChkpts (listing : List (String × Option CheckpointMetadata)) :
    List CheckpointMetadata × List String × Bool :=
  let all_chkpts := listing.filterMap (fun p => p.2)
  let invalid_paths := (listing.filter (fun p => p.2.isNone)).map (fun p => p.1)
  (all_chkpts.insertionSort (fun a b => a.ts ≤ b.ts),
   invalid_paths,
   !invalid_paths.isEmpty)

/-- Embeds `CheckpointManager.__init__` for a process of the given rank:
the tracked list is loaded from storage, the async queue starts empty. -/
def initManager (path : String) (save_interval : Int) (max_to_keep : Nat)
    (rank : Nat) (listing : List (String × Option CheckpointMetadata)) :
    CheckpointManager :=
  { base_path := path
    save_interval := save_interval
    max_to_keep := max_to_keep
    rank := rank
    tracked_chkpts := (loadTrackedChkpts listing).1
    clock := 0
    asyncQueue := [] }

/-- The `while len(self._tracked_chkpts) > self.max_to_keep` loop of
`_release_oldest_checkpoints`: pop the leftmost (oldest) record and
delete its checkpoint from storage. -/
def releaseLoop (k : Nat) :
    List CheckpointMetadata → Storage →
    List CheckpointMetadata × Storage × List Event
  | [], st => ([], st, [])
  | m :: rest, st =>
    if rest.length + 1 > k then
      let del := deleteChkptAtStep st m.step
      let r := releaseLoop k rest del.1
      (r.1, r.2.1, del.2 ++ r.2.2)
    else
      (m :: rest, st, [])

/-- Embeds `CheckpointManager._release_oldest_checkpoints`: the eviction
loop runs only when `dist.get_rank(self.pg) == 0 and self.max_to_keep > 0`. -/
def releaseOldestCheckpoints (mgr : CheckpointManager) (st : Storage) :
    CheckpointManager × Storage × List Event :=
  if mgr.rank == 0 && decide (0 < mgr.max_to_keep) then
    let r := releaseLoop mgr.max_to_keep mgr.tracked_chkpts st
    ({ mgr with tracked_chkpts := r.1 }, r.2.1, r.2.2)
  else
    (mgr, st, [])

deriving instance DecidableEq for Except

/-- Result of one `save` call: the returned boolean (or `error` when an
I/O exception propagated), the manager and storage afterwards, the I/O
trace, and — as a ghost observation — the metadata records appended to
the tracked list by this call. -/
structure SaveOutcome where
  result : Except Unit Bool
  mgr : CheckpointManager
  storage : Storage
  events : List Event
  appended : List CheckpointMetadata
deriving Repr, DecidableEq

/-- Embeds `CheckpointManager.save`.  Gate on `should_save(step) or
force`; delete any existing checkpoint at the step; collectively write
the snapshot (may fail, oracle `snapOk`); build the metadata record at
the current time and write it (may fail, oracle `mdOk`); append the
record to the tracked list; apply retention. -/
def CheckpointManager.save (mgr : CheckpointManager) (st : Storage)
    (step : Int) (force snapOk mdOk : Bool) : SaveOutcome :=
  if mgr.should_save step || force then
    let del := deleteChkptAtStep st step
    if snapOk then
      let st2 := writeSnapshotData del.1 step
      let md : CheckpointMetadata := ⟨step, mgr.clock⟩
      if mdOk then
        let st3 := writeMetadataFile st2 step md
        let mgr2 := { mgr with
          clock := mgr.clock + 1
          tracked_chkpts := mgr.tracked_chkpts ++ [md] }
        let rel := releaseOldestCheckpoints mgr2 st3
        ⟨Except.ok true, rel.1, rel.2.1,
          del.2 ++ [Event.writeSnapshot step, Event.writeMetadata step]
            ++ rel.2.2,
          [md]⟩
      else
        ⟨Except.error (), { mgr with clock := mgr.clock + 1 }, st2,
          del.2 ++ [Event.writeSnapshot step, Event.writeMetadata step], []⟩
    else
      ⟨Except.error (), mgr, del.1, del.2 ++ [Event.writeSnapshot step], []⟩
  else
    ⟨Except.ok false, mgr, st, [], []⟩

/-- Embeds `CheckpointManager.save_async`: same gate as `save`, then the
host-copied snapshot's step is enqueued. -/
def CheckpointManager.save_async (mgr : CheckpointManager) (step : Int)
    (force : Bool) : Bool × CheckpointManager :=
  if mgr.should_save step || force then
    (true, { mgr with asyncQueue := mgr.asyncQueue ++ [step] })
  else
    (false, mgr)

/-- The error raised by `restore` on an untracked step, carrying the
step asked for and the valid steps the message enumerates. -/
inductive RestoreError where
  | untrackedStep (step : Int) (valid : List Int)
deriving Repr, DecidableEq

/-- Result of one `restore` call: normal return or the assertion error,
the manager afterwards, and the I/O trace. -/
structure RestoreOutcome where
  result : Except RestoreError Unit
  mgr : CheckpointManager
  events : List Event
deriving Repr, DecidableEq

/-- Embeds `CheckpointManager.restore`: assert the step is tracked
(raising the untracked-step error before any I/O otherwise), then
collectively read the checkpoint into the caller's state dict. -/
def CheckpointManager.restore (mgr : CheckpointManager) (step : Int) :
    RestoreOutcome :=
  if step ∈ (mgr.tracked_chkpts.map (fun m => m.step)).dedup then
    ⟨Except.ok (), mgr, [Event.readSnapshot step]⟩
  else
    ⟨Except.error (RestoreError.untrackedStep step
        ((mgr.tracked_chkpts.map (fun m => m.step)).dedup)), mgr, []⟩

/-- Embeds `CheckpointManager.all_steps`:
`sorted(x.step for x in self._tracked_chkpts)`. -/
def CheckpointManager.all_steps (mgr : CheckpointManager) : List Int :=
  (mgr.tracked_chkpts.map (fun m => m.step)).insertionSort (fun a b => a ≤ b)

/-- Driver: run a sequence of `save` calls, each `(step, force)` with
both I/O oracles succeeding, and collect the concatenated ghost log of
every metadata record appended along the way. -/
def runSaves (mgr : CheckpointManager) (st : Storage) :
    List (Int × Bool) → CheckpointManager × Storage × List CheckpointMetadata
  | [] => (mgr, st, [])
  | (s, f) :: rest =>
    let o := mgr.save st s f true true
    let r := runSaves o.mgr o.storage rest
    (r.1, r.2.1, o.appended ++ r.2.2)

/-- Instruction list: call `save(s, snap)` (no force) for every step
`s` from `0` to `n - 1`. -/
def saveEveryStep (n : Nat) : List (Int × Bool) :=
  (List.range n).map (fun i => ((i : Int), false))

/-- All timestamps in the list are in the past of clock `c`. -/
def tsBelow (c : Nat) (l : List CheckpointMetadata) : Prop :=
  ∀ m ∈ l, m.ts < c

lemma isSuffix_append_same {α : Type} {l₁ l₂ : List α} (t : List α)
    (h : l₁ <:+ l₂) : l₁ ++ t <:+ l₂ ++ t := by
  obtain ⟨w, hw⟩ := h
  exact ⟨w, by rw [← hw, List.append_assoc]⟩

lemma deleteChkptAtStep_events (st : Storage) (s : Int) :
    ∀ e ∈ (deleteChkptAtStep st s).2, e = Event.deletePath s := by
  intro e he
  unfold deleteChkptAtStep at he
  split at he
  · simpa using he
  · simp at he

lemma ledgerOf_deleteChkptAtStep (st : Storage) (s : Int) :
    ∀ md ∈ ledgerOf (deleteChkptAtStep st s).1, md ∈ ledgerOf st := by
  intro md hmd
  unfold deleteChkptAtStep at hmd
  split at hmd
  · simp only [ledgerOf, List.mem_filterMap] at hmd ⊢
    obtain ⟨d, hd, hd2⟩ := hmd
    exact ⟨d, (List.mem_filter.mp hd).1, hd2⟩
  · exact hmd

lemma ledgerOf_writeSnapshotData (st : Storage) (s : Int) :
    ledgerOf (writeSnapshotData st s) = ledgerOf st := by
  simp [ledgerOf, writeSnapshotData]

lemma releaseLoop_tracked (k : Nat) (l : List CheckpointMetadata) :
    ∀ st : Storage, (releaseLoop k l st).1 = l.drop (l.length - k) := by
  induction l with
  | nil => intro st; simp [releaseLoop]
  | cons m rest ih =>
    intro st
    unfold releaseLoop
    split
    · next h =>
      have h1 : rest.length + 1 - k = (rest.length - k) + 1 := by omega
      simp only [List.length_cons, h1, List.drop_succ_cons]
      exact ih _
    · next h =>
      have h1 : rest.length + 1 - k = 0 := by omega
      simp [h1]

lemma releaseLoop_events (k : Nat) (l : List CheckpointMetadata) :
    ∀ st : Storage, ∀ e ∈ (releaseLoop k l st).2.2, ∃ t, e = Event.deletePath t := by
  induction l with
  | nil => intro st e he; simp [releaseLoop] at he
  | cons m rest ih =>
    intro st e he
    unfold releaseLoop at he
    split at he
    · simp only [List.mem_append] at he
      rcases he with he | he
      · exact ⟨m.step, deleteChkptAtStep_events _ _ e he⟩
      · exact ih _ e he
    · simp at he

lemma releaseOldest_tracked (mgr : CheckpointManager) (st : Storage) :
    (releaseOldestCheckpoints mgr st).1.tracked_chkpts =
      if mgr.rank = 0 ∧ 0 < mgr.max_to_keep then
        mgr.tracked_chkpts.drop
          (mgr.tracked_chkpts.length - mgr.max_to_keep)
      else mgr.tracked_chkpts := by
  unfold releaseOldestCheckpoints
  by_cases h : mgr.rank = 0 ∧ 0 < mgr.max_to_keep
  · have hb : (mgr.rank == 0 && decide (0 < mgr.max_to_keep)) = true := by
      simp [h.1, h.2]
    rw [if_pos hb, if_pos h]
    exact releaseLoop_tracked _ _ _
  · have hb : ¬ ((mgr.rank == 0 && decide (0 < mgr.max_to_keep)) = true) := by
      simpa [Decidable.not_and_iff_or_not] using h
    rw [if_neg hb, if_neg h]

lemma releaseOldest_fields (mgr : CheckpointManager) (st : Storage) :
    (releaseOldestCheckpoints mgr st).1.rank = mgr.rank
    ∧ (releaseOldestCheckpoints mgr st).1.max_to_keep = mgr.max_to_keep
    ∧ (releaseOldestCheckpoints mgr st).1.clock = mgr.clock
    ∧ (releaseOldestCheckpoints mgr st).1.save_interval = mgr.save_interval
    ∧ (releaseOldestCheckpoints mgr st).1.asyncQueue = mgr.asyncQueue := by
  unfold releaseOldestCheckpoints
  split <;> exact ⟨rfl, rfl, rfl, rfl, rfl⟩

lemma releaseOldest_tracked_subset (mgr : CheckpointManager) (st : Storage) :
    ∀ m ∈ (releaseOldestCheckpoints mgr st).1.tracked_chkpts,
      m ∈ mgr.tracked_chkpts := by
  intro m hm
  rw [releaseOldest_tracked] at hm
  split at hm
  · exact (List.drop_suffix _ _).subset hm
  · exact hm

lemma releaseOldest_of_rank_ne (mgr : CheckpointManager) (st : Storage)
    (h : mgr.rank ≠ 0) : releaseOldestCheckpoints mgr st = (mgr, st, []) := by
  unfold releaseOldestCheckpoints
  have hb : ¬ ((mgr.rank == 0 && decide (0 < mgr.max_to_keep)) = true) := by
    simp [h]
  rw [if_neg hb]

lemma releaseOldest_of_keep_zero (mgr : CheckpointManager) (st : Storage)
    (h : mgr.max_to_keep = 0) : releaseOldestCheckpoints mgr st = (mgr, st, []) := by
  unfold releaseOldestCheckpoints
  have hb : ¬ ((mgr.rank == 0 && decide (0 < mgr.max_to_keep)) = true) := by
    simp [h]
  rw [if_neg hb]

lemma releaseOldest_events (mgr : CheckpointManager) (st : Storage) :
    ∀ e ∈ (releaseOldestCheckpoints mgr st).2.2, ∃ t, e = Event.deletePath t := by
  intro e he
  unfold releaseOldestCheckpoints at he
  split at he
  · exact releaseLoop_events _ _ _ e he
  · simp at he

lemma save_gate_false (mgr : CheckpointManager) (st : Storage) (s : Int)
    (f snapOk mdOk : Bool) (h : (mgr.should_save s || f) = false) :
    mgr.save st s f snapOk mdOk = ⟨Except.ok false, mgr, st, [], []⟩ := by
  unfold CheckpointManager.save
  rw [if_neg (by simp [h])]

lemma save_success_eq (mgr : CheckpointManager) (st : Storage) (s : Int)
    (f : Bool) (h : (mgr.should_save s || f) = true) :
    mgr.save st s f true true =
      ⟨Except.ok true,
       (releaseOldestCheckpoints
          { mgr with
            clock := mgr.clock + 1
            tracked_chkpts := mgr.tracked_chkpts ++ [⟨s, mgr.clock⟩] }
          (writeMetadataFile (writeSnapshotData (deleteChkptAtStep st s).1 s) s
            ⟨s, mgr.clock⟩)).1,
       (releaseOldestCheckpoints
          { mgr with
            clock := mgr.clock + 1
            tracked_chkpts := mgr.tracked_chkpts ++ [⟨s, mgr.clock⟩] }
          (writeMetadataFile (writeSnapshotData (deleteChkptAtStep st s).1 s) s
            ⟨s, mgr.clock⟩)).2.1,
       (deleteChkptAtStep st s).2
         ++ [Event.writeSnapshot s, Event.writeMetadata s]
         ++ (releaseOldestCheckpoints
              { mgr with
                clock := mgr.clock + 1
                tracked_chkpts := mgr.tracked_chkpts ++ [⟨s, mgr.clock⟩] }
              (writeMetadataFile (writeSnapshotData (deleteChkptAtStep st s).1 s) s
                ⟨s, mgr.clock⟩)).2.2,
       [⟨s, mgr.clock⟩]⟩ := by
  unfold CheckpointManager.save
  rw [if_pos h]
  rfl

lemma save_snapfail_eq (mgr : CheckpointManager) (st : Storage) (s : Int)
    (f mdOk : Bool) (h : (mgr.should_save s || f) = true) :
    mgr.save st s f false mdOk =
      ⟨Except.error (), mgr, (deleteChkptAtStep st s).1,
       (deleteChkptAtStep st s).2 ++ [Event.writeSnapshot s], []⟩ := by
  unfold CheckpointManager.save
  rw [if_pos h]
  rfl

lemma save_mdfail_eq (mgr : CheckpointManager) (st : Storage) (s : Int)
    (f : Bool) (h : (mgr.should_save s || f) = true) :
    mgr.save st s f true false =
      ⟨Except.error (), { mgr with clock := mgr.clock + 1 },
       writeSnapshotData (deleteChkptAtStep st s).1 s,
       (deleteChkptAtStep st s).2
         ++ [Event.writeSnapshot s, Event.writeMetadata s], []⟩ := by
  unfold CheckpointManager.save
  rw [if_pos h]
  rfl

lemma save_inv (mgr : CheckpointManager) (st : Storage) (s : Int) (f : Bool)
    (h : tsBelow mgr.clock mgr.tracked_chkpts) :
    (mgr.save st s f true true).mgr.rank = mgr.rank
    ∧ (mgr.save st s f true true).mgr.max_to_keep = mgr.max_to_keep
    ∧ (mgr.save st s f true true).mgr.tracked_chkpts
        <:+ mgr.tracked_chkpts ++ (mgr.save st s f true true).appended
    ∧ mgr.clock ≤ (mgr.save st s f true true).mgr.clock
    ∧ (∀ m ∈ (mgr.save st s f true true).appended,
        mgr.clock ≤ m.ts ∧ m.ts < (mgr.save st s f true true).mgr.clock)
    ∧ tsBelow (mgr.save st s f true true).mgr.clock
        (mgr.save st s f true true).mgr.tracked_chkpts
    ∧ (mgr.save st s f true true).appended.Pairwise (fun a b => a.ts < b.ts)
    ∧ (mgr.rank = 0 → 0 < mgr.max_to_keep →
        mgr.tracked_chkpts.length ≤ mgr.max_to_keep →
        (mgr.save st s f true true).mgr.tracked_chkpts.length ≤ mgr.max_to_keep) := by
  by_cases hg : (mgr.should_save s || f) = true
  · rw [save_success_eq mgr st s f hg]
    dsimp only
    have hf := releaseOldest_fields
      { mgr with
        clock := mgr.clock + 1
        tracked_chkpts := mgr.tracked_chkpts ++ [⟨s, mgr.clock⟩] }
      (writeMetadataFile (writeSnapshotData (deleteChkptAtStep st s).1 s) s
        ⟨s, mgr.clock⟩)
    have ht := releaseOldest_tracked
      { mgr with
        clock := mgr.clock + 1
        tracked_chkpts := mgr.tracked_chkpts ++ [⟨s, mgr.clock⟩] }
      (writeMetadataFile (writeSnapshotData (deleteChkptAtStep st s).1 s) s
        ⟨s, mgr.clock⟩)
    have hsub := releaseOldest_tracked_subset
      { mgr with
        clock := mgr.clock + 1
        tracked_chkpts := mgr.tracked_chkpts ++ [⟨s, mgr.clock⟩] }
      (writeMetadataFile (writeSnapshotData (deleteChkptAtStep st s).1 s) s
        ⟨s, mgr.clock⟩)
    refine ⟨hf.1, hf.2.1, ?_, ?_, ?_, ?_, ?_, ?_⟩
    · rw [ht]
      split
      · exact (List.drop_suffix _ _).trans (List.suffix_refl _)
      · exact List.suffix_refl _
    · rw [hf.2.2.1]
      exact Nat.le_succ _
    · intro m hm
      rw [List.mem_singleton] at hm
      subst hm
      rw [hf.2.2.1]
      exact ⟨Nat.le_refl _, Nat.lt_succ_self _⟩
    · intro m hm
      rw [hf.2.2.1]
      have := hsub m hm
      rw [List.mem_append] at this
      rcases this with h1 | h1
      · exact Nat.lt_succ_of_lt (h m h1)
      · rw [List.mem_singleton] at h1
        subst h1
        exact Nat.lt_succ_self _
    · exact List.pairwise_singleton _ _
    · intro hr hk _
      rw [ht, if_pos ⟨hr, hk⟩, List.length_drop]
      simp only [List.length_append, List.length_cons, List.length_nil]
      omega
  · have hg' : (mgr.should_save s || f) = false := by
      simpa using hg
    rw [save_gate_false mgr st s f true true hg']
    dsimp only
    refine ⟨rfl, rfl, ?_, Nat.le_refl _, ?_, h, List.Pairwise.nil, ?_⟩
    · rw [List.append_nil]
    · intro m hm
      simp at hm
    · intro _ _ hlen
      exact hlen

lemma runSaves_nil (mgr : CheckpointManager) (st : Storage) :
    runSaves mgr st [] = (mgr, st, []) := rfl

lemma runSaves_cons (mgr : CheckpointManager) (st : Storage) (s : Int)
    (f : Bool) (rest : List (Int × Bool)) :
    runSaves mgr st ((s, f) :: rest) =
      ((runSaves (mgr.save st s f true true).mgr
          (mgr.save st s f true true).storage rest).1,
       (runSaves (mgr.save st s f true true).mgr
          (mgr.save st s f true true).storage rest).2.1,
       (mgr.save st s f true true).appended
         ++ (runSaves (mgr.save st s f true true).mgr
              (mgr.save st s f true true).storage rest).2.2) := rfl

lemma runSaves_inv (L : List (Int × Bool)) :
    ∀ (mgr : CheckpointManager) (st : Storage),
    tsBelow mgr.clock mgr.tracked_chkpts →
    (runSaves mgr st L).1.rank = mgr.rank
    ∧ (runSaves mgr st L).1.max_to_keep = mgr.max_to_keep
    ∧ (runSaves mgr st L).1.tracked_chkpts
        <:+ mgr.tracked_chkpts ++ (runSaves mgr st L).2.2
    ∧ mgr.clock ≤ (runSaves mgr st L).1.clock
    ∧ (∀ m ∈ (runSaves mgr st L).2.2,
        mgr.clock ≤ m.ts ∧ m.ts < (runSaves mgr st L).1.clock)
    ∧ tsBelow (runSaves mgr st L).1.clock (runSaves mgr st L).1.tracked_chkpts
    ∧ (runSaves mgr st L).2.2.Pairwise (fun a b => a.ts < b.ts)
    ∧ (mgr.rank = 0 → 0 < mgr.max_to_keep →
        mgr.tracked_chkpts.length ≤ mgr.max_to_keep →
        (runSaves mgr st L).1.tracked_chkpts.length ≤ mgr.max_to_keep) := by
  induction L with
  | nil =>
    intro mgr st h
    rw [runSaves_nil]
    refine ⟨rfl, rfl, ?_, Nat.le_refl _, ?_, h, List.Pairwise.nil,
      fun _ _ hl => hl⟩
    · rw [List.append_nil]
    · intro m hm
      simp at hm
  | cons p rest ih =>
    intro mgr st h
    obtain ⟨s, f⟩ := p
    obtain ⟨h1, h2, h3, h4, h5, h6, h7, h8⟩ := save_inv mgr st s f h
    obtain ⟨g1, g2, g3, g4, g5, g6, g7, g8⟩ :=
      ih (mgr.save st s f true true).mgr (mgr.save st s f true true).storage h6
    rw [runSaves_cons]
    refine ⟨g1.trans h1, g2.trans h2, ?_, h4.trans g4, ?_, g6, ?_, ?_⟩
    · have step := isSuffix_append_same
        (runSaves (mgr.save st s f true true).mgr
          (mgr.save st s f true true).storage rest).2.2 h3
      have := g3.trans step
      rwa [List.append_assoc] at this
    · intro m hm
      rw [List.mem_append] at hm
      rcases hm with hm | hm
      · obtain ⟨ha, hb⟩ := h5 m hm
        exact ⟨ha, Nat.lt_of_lt_of_le hb g4⟩
      · obtain ⟨ha, hb⟩ := g5 m hm
        exact ⟨h4.trans ha, hb⟩
    · refine List.pairwise_append.mpr ⟨h7, g7, ?_⟩
      intro a haa b hbb
      exact Nat.lt_of_lt_of_le (h5 a haa).2 (g5 b hbb).1
    · intro hr hk hlen
      have hr2 : (mgr.save st s f true true).mgr.rank = 0 := by
        rw [h1]; exact hr
      have hk2 : 0 < (mgr.save st s f true true).mgr.max_to_keep := by
        rw [h2]; exact hk
      have hlen2 : (mgr.save st s f true true).mgr.tracked_chkpts.length
          ≤ (mgr.save st s f true true).mgr.max_to_keep := by
        rw [h2]; exact h8 hr hk hlen
      have hfin := g8 hr2 hk2 hlen2
      rw [h2] at hfin
      exact hfin

instance : IsTotal CheckpointMetadata (fun a b => a.ts ≤ b.ts) :=
  ⟨fun a b => Nat.le_total a.ts b.ts⟩

instance : IsTrans CheckpointMetadata (fun a b => a.ts ≤ b.ts) :=
  ⟨fun _ _ _ hab hbc => Nat.le_trans hab hbc⟩

/-- On a process where retention cannot fire (nonzero rank, or an
unbounded `max_to_keep`), the only deletion a `save` can perform is the
cleanup of the step being saved. -/
lemma save_delete_events (mgr : CheckpointManager) (st : Storage) (s : Int)
    (f snapOk mdOk : Bool)
    (hside : mgr.rank ≠ 0 ∨ mgr.max_to_keep = 0) :
    ∀ e ∈ (mgr.save st s f snapOk mdOk).events, ∀ t,
      e = Event.deletePath t → t = s := by
  intro e he t het
  subst het
  by_cases hg : (mgr.should_save s || f) = true
  · cases hsnap : snapOk with
    | false =>
      rw [hsnap, save_snapfail_eq mgr st s f mdOk hg] at he
      dsimp only at he
      rw [List.mem_append] at he
      rcases he with he | he
      · have := deleteChkptAtStep_events st s _ he
        injection this
      · simp at he
    | true =>
      cases hmd : mdOk with
      | false =>
        rw [hsnap, hmd, save_mdfail_eq mgr st s f hg] at he
        dsimp only at he
        rw [List.mem_append] at he
        rcases he with he | he
        · have := deleteChkptAtStep_events st s _ he
          injection this
        · simp at he
      | true =>
        rw [hsnap, hmd, save_success_eq mgr st s f hg] at he
        dsimp only at he
        have hrel : releaseOldestCheckpoints
            { mgr with
              clock := mgr.clock + 1
              tracked_chkpts := mgr.tracked_chkpts ++ [⟨s, mgr.clock⟩] }
            (writeMetadataFile (writeSnapshotData (deleteChkptAtStep st s).1 s) s
              ⟨s, mgr.clock⟩) =
            ({ mgr with
              clock := mgr.clock + 1
              tracked_chkpts := mgr.tracked_chkpts ++ [⟨s, mgr.clock⟩] },
             writeMetadataFile (writeSnapshotData (deleteChkptAtStep st s).1 s) s
               ⟨s, mgr.clock⟩, []) := by
          rcases hside with hside | hside
          · exact releaseOldest_of_rank_ne _ _ hside
          · exact releaseOldest_of_keep_zero _ _ hside
        rw [hrel] at he
        dsimp only at he
        rw [List.append_nil, List.mem_append] at he
        rcases he with he | he
        · have := deleteChkptAtStep_events st s _ he
          injection this
        · simp at he
  · have hg' : (mgr.should_save s || f) = false := by simpa using hg
    rw [save_gate_false mgr st s f snapOk mdOk hg'] at he
    simp at he

set_option maxRecDepth 8000

/-- Claim C1: the spec states that calling `save(s, snap, force=true)`
twice in a row leaves exactly one tracked entry for `s`.  The code's
`save` deletes the old checkpoint from storage but never removes the old
record from `_tracked_chkpts`, so after two forced saves at step 0 the
tracked list holds two entries for step 0 — `all_steps()` returns
`[0, 0]` — even though storage holds exactly one checkpoint (whose one
ledger record carries the second timestamp).  This contradicts the
class's own guarantee that any tracked step can be restored: with a
positive `max_to_keep`, retention later pops the stale duplicate and
deletes the storage of the still-tracked rewritten checkpoint. -/
theorem c1_save_twice_duplicates_tracked_entry :
    (((initManager "ckpt" 10 0 0 []).save [] 0 true true true).mgr.save
        ((initManager "ckpt" 10 0 0 []).save [] 0 true true true).storage
        0 true true true).mgr.all_steps = [0, 0]
    ∧ (((initManager "ckpt" 10 0 0 []).save [] 0 true true true).mgr.save
        ((initManager "ckpt" 10 0 0 []).save [] 0 true true true).storage
        0 true true true).mgr.tracked_chkpts.countP (fun m => m.step == 0) = 2
    ∧ ledgerOf (((initManager "ckpt" 10 0 0 []).save [] 0 true true true).mgr.save
        ((initManager "ckpt" 10 0 0 []).save [] 0 true true true).storage
        0 true true true).storage = [⟨0, 1⟩] := by
  decide

/-- Claim C6: for every integer step `s`, `should_save(s)` returns true
iff `s` modulo `save_interval` equals 0 (Python `%` with a positive
modulus agrees with `Int.emod`). -/
theorem c6_should_save_iff_mod (mgr : CheckpointManager) (s : Int) :
    mgr.should_save s = true ↔ s % mgr.save_interval = 0 := by
  simp [CheckpointManager.should_save]

/-- Claim C3, counterexample: a rank-1 process calling `save` on a step
that already has a checkpoint on storage performs a `deletePath` —
`_delete_chkpt_at_step` in `save` is not rank-gated, so nonzero ranks do
delete paths under `base_path`. -/
theorem c3_counterexample_nonzero_rank_deletes :
    (initManager "ckpt" 10 2 1 []).rank = 1
    ∧ Event.deletePath 0 ∈
        ((initManager "ckpt" 10 2 1 []).save
          [⟨0, some ⟨0, 0⟩⟩] 0 true true true).events := by
  decide

/-- Claim C3 (amended): retention deletions are performed only by the
rank-0 process — on a nonzero rank `_release_oldest_checkpoints` is a
no-op — and the only deletion a nonzero-rank `save` performs is the
cleanup of a pre-existing checkpoint at the very step being saved. -/
theorem c3_retention_deletions_rank0_only (mgr : CheckpointManager)
    (st : Storage) (s : Int) (f snapOk mdOk : Bool) (h : mgr.rank ≠ 0) :
    releaseOldestCheckpoints mgr st = (mgr, st, [])
    ∧ (∀ e ∈ (mgr.save st s f snapOk mdOk).events, ∀ t,
        e = Event.deletePath t → t = s) :=
  ⟨releaseOldest_of_rank_ne mgr st h,
   save_delete_events mgr st s f snapOk mdOk (Or.inl h)⟩

/-- Witness for `c3_retention_deletions_rank0_only` at a concrete
rank-1 manager. -/
theorem c3_retention_deletions_rank0_only_witness :
    (initManager "ckpt" 10 2 1 []).rank ≠ 0
    ∧ releaseOldestCheckpoints (initManager "ckpt" 10 2 1 []) []
        = ((initManager "ckpt" 10 2 1 []), [], []) :=
  ⟨by decide,
   (c3_retention_deletions_rank0_only (initManager "ckpt" 10 2 1 [])
      [] 0 true true true (by decide)).1⟩

/-- Claim C9, counterexample: even with `max_to_keep = 0` a save is not
deletion-free — re-saving a step whose checkpoint already exists on
storage performs the cleanup `deletePath` regardless of the retention
setting. -/
theorem c9_counterexample_save_deletes :
    (initManager "ckpt" 1 0 0 []).max_to_keep = 0
    ∧ Event.deletePath 0 ∈
        (((initManager "ckpt" 1 0 0 []).save [] 0 false true true).mgr.save
          ((initManager "ckpt" 1 0 0 []).save [] 0 false true true).storage
          0 false true true).events := by
  decide

/-- Claim C9 (amended): with `max_to_keep = 0` retention is a no-op —
`_release_oldest_checkpoints` changes nothing, no save ever removes a
tracked entry (the tracked list only grows by the appended record), and
the only deletion a save can perform is the cleanup of the very step
being saved; after 100 saves of distinct steps at interval 1,
`all_steps()` has 100 entries. -/
theorem c9_unbounded_retention_noop (mgr : CheckpointManager) (st : Storage)
    (s : Int) (f snapOk mdOk : Bool) (hk : mgr.max_to_keep = 0) :
    releaseOldestCheckpoints mgr st = (mgr, st, [])
    ∧ (mgr.save st s f snapOk mdOk).mgr.tracked_chkpts
        = mgr.tracked_chkpts ++ (mgr.save st s f snapOk mdOk).appended
    ∧ (∀ e ∈ (mgr.save st s f snapOk mdOk).events, ∀ t,
        e = Event.deletePath t → t = s)
    ∧ (runSaves (initManager "ckpt" 1 0 0 []) []
        (saveEveryStep 100)).1.all_steps.length = 100 := by
  refine ⟨releaseOldest_of_keep_zero mgr st hk, ?_,
    save_delete_events mgr st s f snapOk mdOk (Or.inr hk), by decide⟩
  by_cases hg : (mgr.should_save s || f) = true
  · cases hsnap : snapOk with
    | false =>
      rw [save_snapfail_eq mgr st s f mdOk hg]
      dsimp only
      rw [List.append_nil]
    | true =>
      cases hmd : mdOk with
      | false =>
        rw [save_mdfail_eq mgr st s f hg]
        dsimp only
        rw [List.append_nil]
      | true =>
        rw [save_success_eq mgr st s f hg]
        dsimp only
        rw [releaseOldest_of_keep_zero
          { mgr with
            clock := mgr.clock + 1
            tracked_chkpts := mgr.tracked_chkpts ++ [⟨s, mgr.clock⟩] }
          (writeMetadataFile (writeSnapshotData (deleteChkptAtStep st s).1 s) s
            ⟨s, mgr.clock⟩) hk]
  · have hg' : (mgr.should_save s || f) = false := by simpa using hg
    rw [save_gate_false mgr st s f snapOk mdOk hg']
    dsimp only
    rw [List.append_nil]

/-- Witness for `c9_unbounded_retention_noop` at a concrete unbounded
manager. -/
theorem c9_unbounded_retention_noop_witness :
    (initManager "ckpt" 1 0 0 []).max_to_keep = 0
    ∧ (runSaves (initManager "ckpt" 1 0 0 []) []
        (saveEveryStep 100)).1.all_steps.length = 100 :=
  ⟨rfl, (c9_unbounded_retention_noop (initManager "ckpt" 1 0 0 [])
      [] 0 true true true rfl).2.2.2⟩

/-- Claim C2, counterexample: the retention bound does not hold "for
every process".  On a rank-1 process `_release_oldest_checkpoints` is a
no-op, so after the successful saves at steps 0, 10, 20 (interval 10,
`max_to_keep = 2`) the local `all_steps()` still holds three entries. -/
theorem c2_counterexample_nonzero_rank_unbounded :
    (runSaves (initManager "ckpt" 10 2 1 []) []
        (saveEveryStep 30)).1.max_to_keep = 2
    ∧ (runSaves (initManager "ckpt" 10 2 1 []) []
        (saveEveryStep 30)).1.all_steps = [0, 10, 20] := by
  decide

/-- Claim C2 (amended to the rank-0 process, the one that applies
retention): starting from a fresh rank-0 manager with `max_to_keep = k > 0`,
after any sequence of successful saves the tracked list has at most `k`
entries and is a suffix of the strictly-timestamp-increasing log of all
appended records — i.e. the retained entries are the most recently
timestamped ones; concretely, `save_interval=10, max_to_keep=2` and
saves at steps 0..29 leave `all_steps() == [10, 20]`. -/
theorem c2_rank0_retention_bound (path : String) (si : Int) (k : Nat)
    (hk : 0 < k) (L : List (Int × Bool)) :
    (runSaves (initManager path si k 0 []) [] L).1.tracked_chkpts.length ≤ k
    ∧ (runSaves (initManager path si k 0 []) [] L).1.tracked_chkpts
        <:+ (runSaves (initManager path si k 0 []) [] L).2.2
    ∧ (runSaves (initManager path si k 0 []) [] L).2.2.Pairwise
        (fun a b => a.ts < b.ts)
    ∧ (runSaves (initManager "ckpt" 10 2 0 []) []
        (saveEveryStep 30)).1.all_steps = [10, 20] := by
  have he : (initManager path si k 0 []).tracked_chkpts = [] := rfl
  have h0 : tsBelow (initManager path si k 0 []).clock
      (initManager path si k 0 []).tracked_chkpts := by
    intro m hm
    rw [he] at hm
    simp at hm
  obtain ⟨h1, h2, h3, h4, h5, h6, h7, h8⟩ :=
    runSaves_inv L (initManager path si k 0 []) [] h0
  refine ⟨?_, ?_, h7, by decide⟩
  · exact h8 rfl hk (Nat.zero_le k)
  · rw [he, List.nil_append] at h3
    exact h3

/-- Witness for `c2_rank0_retention_bound` at the concrete scenario. -/
theorem c2_rank0_retention_bound_witness :
    0 < 2
    ∧ (runSaves (initManager "ckpt" 10 2 0 []) []
        (saveEveryStep 30)).1.tracked_chkpts.length ≤ 2 :=
  ⟨by decide,
   (c2_rank0_retention_bound "ckpt" 10 2 (by decide) (saveEveryStep 30)).1⟩

/-- Claim C4: if neither `force` nor `should_save(step)` holds, `save`
returns false with the manager and storage untouched and an empty I/O
trace; and whenever `save` returns true, the saved step is in
`all_steps()` (the freshly appended record survives retention, which
only evicts from the front down to a positive bound). -/
theorem c4_save_gate_and_tracked_membership (mgr : CheckpointManager)
    (st : Storage) (s : Int) (f snapOk mdOk : Bool) :
    (mgr.should_save s = false → f = false →
      mgr.save st s f snapOk mdOk = ⟨Except.ok false, mgr, st, [], []⟩)
    ∧ ((mgr.save st s f snapOk mdOk).result = Except.ok true →
        s ∈ (mgr.save st s f snapOk mdOk).mgr.all_steps) := by
  constructor
  · intro h1 h2
    exact save_gate_false mgr st s f snapOk mdOk (by simp [h1, h2])
  · intro hres
    by_cases hg : (mgr.should_save s || f) = true
    · cases hsnap : snapOk with
      | false =>
        rw [hsnap, save_snapfail_eq mgr st s f mdOk hg] at hres
        exact absurd hres (by simp)
      | true =>
        cases hmd : mdOk with
        | false =>
          rw [hsnap, hmd, save_mdfail_eq mgr st s f hg] at hres
          exact absurd hres (by simp)
        | true =>
          rw [save_success_eq mgr st s f hg]
          unfold CheckpointManager.all_steps
          rw [List.mem_insertionSort]
          dsimp only
          rw [releaseOldest_tracked]
          split
          · next hcase =>
            dsimp only at hcase ⊢
            have hk0 : 0 < mgr.max_to_keep := hcase.2
            have hj : (mgr.tracked_chkpts
                  ++ [(⟨s, mgr.clock⟩ : CheckpointMetadata)]).length
                - mgr.max_to_keep ≤ mgr.tracked_chkpts.length := by
              rw [List.length_append]
              simp only [List.length_cons, List.length_nil]
              omega
            rw [List.drop_append_of_le_length hj]
            simp
          · dsimp only
            simp
    · have hg' : (mgr.should_save s || f) = false := by simpa using hg
      rw [save_gate_false mgr st s f snapOk mdOk hg'] at hres
      exact absurd hres (by simp)

/-- Witness for `c4_save_gate_and_tracked_membership`: step 5 is gated
out (interval 10, no force); a forced-free save at step 0 lands in
`all_steps()`. -/
theorem c4_save_gate_and_tracked_membership_witness :
    ((initManager "ckpt" 10 0 0 []).save [] 5 false true true
        = ⟨Except.ok false, initManager "ckpt" 10 0 0 [], [], [], []⟩)
    ∧ (0 : Int) ∈ ((initManager "ckpt" 10 0 0 []).save
        [] 0 false true true).mgr.all_steps :=
  ⟨(c4_save_gate_and_tracked_membership (initManager "ckpt" 10 0 0 [])
      [] 5 false true true).1 (by decide) rfl,
   (c4_save_gate_and_tracked_membership (initManager "ckpt" 10 0 0 [])
      [] 0 false true true).2 (by decide)⟩

/-- Claim C5, counterexample: a failed attempt does not leave the ledger
unmodified — the cleanup delete of a pre-existing checkpoint at the same
step happens before the snapshot write, so when the snapshot write then
fails the old ledger record is already gone. -/
theorem c5_counterexample_failed_save_modifies_ledger :
    ((initManager "ckpt" 10 0 0 []).save
        [⟨0, some ⟨0, 0⟩⟩] 0 true false true).result = Except.error ()
    ∧ ¬ (ledgerOf ((initManager "ckpt" 10 0 0 []).save
          [⟨0, some ⟨0, 0⟩⟩] 0 true false true).storage
        = ledgerOf [⟨0, some ⟨0, 0⟩⟩]) := by
  decide

/-- Claim C5 (amended): within a save attempt the metadata write happens
strictly after the snapshot write (the trace is cleanup deletes, then
`writeSnapshot`, then `writeMetadata`, then retention deletes); and when
either write fails, the call raises, no entry is appended to the tracked
list, and no new ledger record is registered — though the cleanup
deletion of a pre-existing checkpoint at that step has already
happened. -/
theorem c5_write_order_and_failed_attempt (mgr : CheckpointManager)
    (st : Storage) (s : Int) (f snapOk mdOk : Bool)
    (hg : (mgr.should_save s || f) = true) :
    (snapOk = true → mdOk = true →
      ∃ d r, (mgr.save st s f snapOk mdOk).events
          = d ++ [Event.writeSnapshot s, Event.writeMetadata s] ++ r
        ∧ (∀ e ∈ d, e = Event.deletePath s)
        ∧ (∀ e ∈ r, ∃ t, e = Event.deletePath t))
    ∧ ((snapOk = false ∨ mdOk = false) →
        (mgr.save st s f snapOk mdOk).result = Except.error ()
        ∧ (mgr.save st s f snapOk mdOk).mgr.tracked_chkpts
            = mgr.tracked_chkpts
        ∧ (mgr.save st s f snapOk mdOk).appended = []
        ∧ (∀ md ∈ ledgerOf (mgr.save st s f snapOk mdOk).storage,
            md ∈ ledgerOf st)) := by
  constructor
  · intro hsnap hmd
    subst hsnap
    subst hmd
    rw [save_success_eq mgr st s f hg]
    dsimp only
    refine ⟨(deleteChkptAtStep st s).2, _, rfl,
      deleteChkptAtStep_events st s, releaseOldest_events _ _⟩
  · intro hfail
    cases hsnap : snapOk with
    | false =>
      rw [save_snapfail_eq mgr st s f mdOk hg]
      exact ⟨rfl, rfl, rfl, ledgerOf_deleteChkptAtStep st s⟩
    | true =>
      cases hmd : mdOk with
      | false =>
        rw [save_mdfail_eq mgr st s f hg]
        refine ⟨rfl, rfl, rfl, ?_⟩
        intro md hmd2
        dsimp only at hmd2
        rw [ledgerOf_writeSnapshotData] at hmd2
        exact ledgerOf_deleteChkptAtStep st s md hmd2
      | true =>
        rcases hfail with hfail | hfail
        · rw [hsnap] at hfail
          exact absurd hfail (by simp)
        · rw [hmd] at hfail
          exact absurd hfail (by simp)

/-- Witness for `c5_write_order_and_failed_attempt`: a forced save on a
fresh manager writes the snapshot before the metadata. -/
theorem c5_write_order_and_failed_attempt_witness :
    ((initManager "ckpt" 10 0 0 []).should_save 0 || true) = true
    ∧ ∃ d r, ((initManager "ckpt" 10 0 0 []).save [] 0 true true true).events
        = d ++ [Event.writeSnapshot 0, Event.writeMetadata 0] ++ r
        ∧ (∀ e ∈ d, e = Event.deletePath 0)
        ∧ (∀ e ∈ r, ∃ t, e = Event.deletePath t) :=
  ⟨by decide,
   (c5_write_order_and_failed_attempt (initManager "ckpt" 10 0 0 [])
      [] 0 true true true (by decide)).1 rfl rfl⟩

/-- Claim C7: restoring an untracked step fails with the untracked-step
error, carrying exactly the currently valid steps (same membership as
`all_steps()`), and performs no storage I/O. -/
theorem c7_restore_untracked_error (mgr : CheckpointManager) (s : Int)
    (h : s ∉ mgr.all_steps) :
    (mgr.restore s).result = Except.error (RestoreError.untrackedStep s
        ((mgr.tracked_chkpts.map (fun m => m.step)).dedup))
    ∧ (mgr.restore s).events = []
    ∧ (∀ t, t ∈ (mgr.tracked_chkpts.map (fun m => m.step)).dedup
        ↔ t ∈ mgr.all_steps) := by
  have hmem : ∀ t : Int, t ∈ (mgr.tracked_chkpts.map (fun m => m.step)).dedup
      ↔ t ∈ mgr.all_steps := by
    intro t
    rw [List.mem_dedup]
    unfold CheckpointManager.all_steps
    rw [List.mem_insertionSort]
  have hs : s ∉ (mgr.tracked_chkpts.map (fun m => m.step)).dedup := by
    rw [hmem]
    exact h
  unfold CheckpointManager.restore
  rw [if_neg hs]
  exact ⟨rfl, rfl, hmem⟩

/-- Witness for `c7_restore_untracked_error` on a fresh manager with no
tracked checkpoints. -/
theorem c7_restore_untracked_error_witness :
    (5 : Int) ∉ (initManager "ckpt" 10 0 0 []).all_steps
    ∧ ((initManager "ckpt" 10 0 0 []).restore 5).result
        = Except.error (RestoreError.untrackedStep 5
            (((initManager "ckpt" 10 0 0 []).tracked_chkpts.map
              (fun m => m.step)).dedup)) :=
  ⟨by decide,
   (c7_restore_untracked_error (initManager "ckpt" 10 0 0 []) 5 (by decide)).1⟩

/-- Claim C8: loading the tracked list at startup returns the readable
entries sorted by timestamp ascending (a permutation of exactly the
readable ones), reports exactly the unreadable paths, and logs the
aggregate warning iff there was at least one; the loader is a total
function — an individual bad entry is skipped, never raised. -/
theorem c8_load_tracked_chkpts_spec
    (listing : List (String × Option CheckpointMetadata)) :
    (loadTrackedChkpts listing).1.Pairwise (fun a b => a.ts ≤ b.ts)
    ∧ (loadTrackedChkpts listing).1.Perm
        (listing.filterMap (fun p => p.2))
    ∧ (loadTrackedChkpts listing).2.1
        = (listing.filter (fun p => p.2.isNone)).map (fun p => p.1)
    ∧ ((loadTrackedChkpts listing).2.2 = true
        ↔ (loadTrackedChkpts listing).2.1 ≠ []) := by
  refine ⟨?_, ?_, rfl, ?_⟩
  · exact List.sorted_insertionSort (fun a b => a.ts ≤ b.ts)
      (listing.filterMap (fun p => p.2))
  · exact List.perm_insertionSort (fun a b => a.ts ≤ b.ts)
      (listing.filterMap (fun p => p.2))
  · dsimp only [loadTrackedChkpts]
    rw [Bool.not_eq_true']
    simp [List.isEmpty_eq_false]

/-- Claim C10: `restore` on a tracked step returns normally and leaves
every piece of manager state — the tracked list (hence `all_steps()`),
`max_to_keep`, `save_interval`, and the async queue — exactly as it
was. -/
theorem c10_restore_frame (mgr : CheckpointManager) (s : Int)
    (h : s ∈ mgr.all_steps) :
    (mgr.restore s).result = Except.ok ()
    ∧ (mgr.restore s).mgr.tracked_chkpts = mgr.tracked_chkpts
    ∧ (mgr.restore s).mgr.all_steps = mgr.all_steps
    ∧ (mgr.restore s).mgr.max_to_keep = mgr.max_to_keep
    ∧ (mgr.restore s).mgr.save_interval = mgr.save_interval
    ∧ (mgr.restore s).mgr.asyncQueue = mgr.asyncQueue := by
  have hs : s ∈ (mgr.tracked_chkpts.map (fun m => m.step)).dedup := by
    rw [List.mem_dedup]
    unfold CheckpointManager.all_steps at h
    rwa [List.mem_insertionSort] at h
  unfold CheckpointManager.restore
  rw [if_pos hs]
  exact ⟨rfl, rfl, rfl, rfl, rfl, rfl⟩

/-- Witness for `c10_restore_frame` on a manager that loaded one
checkpoint at startup. -/
theorem c10_restore_frame_witness :
    (0 : Int) ∈ (initManager "ckpt" 10 0 0 [("0", some ⟨0, 0⟩)]).all_steps
    ∧ ((initManager "ckpt" 10 0 0 [("0", some ⟨0, 0⟩)]).restore 0).result
        = Except.ok () :=
  ⟨by decide,
   (c10_restore_frame (initManager "ckpt" 10 0 0 [("0", some ⟨0, 0⟩)])
      0 (by decide)).1⟩

end Ckpt
